import Mathlib

/-!
Verification of the classification-and-routing pipeline of the
PM-Cloudflare feedback-intelligence worker (src/ai.ts, src/db.ts, src/kv.ts).

The development shallowly embeds the TypeScript source:
JavaScript numbers are modelled as rationals, JSON values as an inductive
type, `JSON.parse` as an executable fuelled recursive-descent function,
JavaScript object-literal/spread semantics as list-of-pairs operations,
and the LLM binding as an explicit capability function returning
`Except` (a thrown transport error is the `.error` case).
-/

/-- JSON values, the model of the dynamic (`any`) data flowing through
`parseAIResponse` and result assembly in src/ai.ts. -/
inductive Json where
  | null : Json
  | bool (b : Bool) : Json
  | num (q : ℚ) : Json
  | str (s : String) : Json
  | arr (elems : List Json) : Json
  | obj (members : List (String × Json)) : Json

/-- Insert/overwrite a key in a JS object member list: an existing key keeps
its position and gets the new value, a fresh key is appended (JavaScript
object-literal and `[[Set]]` semantics). -/
def objInsert : List (String × Json) → String → Json → List (String × Json)
  | [], k, v => [(k, v)]
  | (k', v') :: rest, k, v =>
    if k' = k then (k, v) :: rest else (k', v') :: objInsert rest k v

/-- Look a key up in a JS object member list. Every object of this
pipeline is built through `objInsert` (the parser collapses duplicate keys
the way `JSON.parse` does), so keys are unique and first-match lookup
agrees with JS property access. -/
def objLookup : List (String × Json) → String → Option Json
  | [], _ => none
  | (k', v') :: rest, k => if k' = k then some v' else objLookup rest k

/-- JS property access `j[k]` on a JSON value: objects are looked up, any
other value has no (string-keyed JSON-observable) properties. -/
def jsLookup : Json → String → Option Json
  | Json.obj kvs, k => objLookup kvs k
  | _, _ => none

/-- JS property assignment on an object value; a non-object target is
returned unchanged (assembly in the source only ever targets fresh object
literals). -/
def jsSet (j : Json) (k : String) (v : Json) : Json :=
  match j with
  | Json.obj kvs => Json.obj (objInsert kvs k v)
  | _ => j

/-- JS property deletion; used to model a property whose assigned value is
`undefined` (observationally absent under JSON serialisation). -/
def jsRemove (j : Json) (k : String) : Json :=
  match j with
  | Json.obj kvs => Json.obj (kvs.filter (fun p => ¬ p.1 = k))
  | _ => j

/-- Property assignment with a possibly-`undefined` (= `none`) value. -/
def jsSetOpt (j : Json) (k : String) : Option Json → Json
  | some v => jsSet j k v
  | none => jsRemove j k

/-- JS object spread `\x7b ...target, ...src \x7d`: copy each member of `src`
onto `target` in order. Spreading a non-object JSON value contributes no
string-keyed members (string index properties are not modelled; no JSON
value in this pipeline is spread as a string). -/
def jsSpread (target : Json) : Json → Json
  | Json.obj kvs => kvs.foldl (fun t p => jsSet t p.1 p.2) target
  | _ => target

/-- JS truthiness of a JSON value (`!v` in the source's validation). -/
def jsTruthy : Json → Bool
  | Json.null => false
  | Json.bool b => b
  | Json.num q => ¬ q = 0
  | Json.str s => ¬ s = ""
  | Json.arr _ => true
  | Json.obj _ => true

/-! Executable model of `JSON.parse`. -/

/-- JSON whitespace. -/
def isJsonWs (c : Char) : Bool := c = ' ' || c = '\t' || c = '\n' || c = '\r'

def skipWs (cs : List Char) : List Char := cs.dropWhile isJsonWs

/-- Value of a hex digit, if any. -/
def hexVal? (c : Char) : Option Nat :=
  if '0' ≤ c ∧ c ≤ '9' then some (c.toNat - '0'.toNat)
  else if 'a' ≤ c ∧ c ≤ 'f' then some (c.toNat - 'a'.toNat + 10)
  else if 'A' ≤ c ∧ c ≤ 'F' then some (c.toNat - 'A'.toNat + 10)
  else none

/-- Body of a JSON string literal (after the opening quote): returns the
decoded string and the remaining input, handling the JSON escapes; fails on
unterminated strings, bad escapes and raw control characters. -/
def parseStringBody : Nat → List Char → List Char → Option (String × List Char)
  | 0, _, _ => none
  | fuel + 1, acc, cs =>
    match cs with
    | [] => none
    | c :: rest =>
      if c = '"' then some (String.mk acc.reverse, rest)
      else if c = '\\' then
        match rest with
        | [] => none
        | e :: rest2 =>
          if e = '"' then parseStringBody fuel ('"' :: acc) rest2
          else if e = '\\' then parseStringBody fuel ('\\' :: acc) rest2
          else if e = '/' then parseStringBody fuel ('/' :: acc) rest2
          else if e = 'n' then parseStringBody fuel ('\n' :: acc) rest2
          else if e = 't' then parseStringBody fuel ('\t' :: acc) rest2
          else if e = 'r' then parseStringBody fuel ('\r' :: acc) rest2
          else if e = 'b' then parseStringBody fuel (Char.ofNat 8 :: acc) rest2
          else if e = 'f' then parseStringBody fuel (Char.ofNat 12 :: acc) rest2
          else if e = 'u' then
            match rest2 with
            | h1 :: h2 :: h3 :: h4 :: rest3 =>
              match hexVal? h1, hexVal? h2, hexVal? h3, hexVal? h4 with
              | some a, some b, some c2, some d =>
                parseStringBody fuel (Char.ofNat (((a * 16 + b) * 16 + c2) * 16 + d) :: acc) rest3
              | _, _, _, _ => none
            | _ => none
          else none
      else if c.toNat < 32 then none
      else parseStringBody fuel (c :: acc) rest

/-- Digits to a natural number. -/
def digitsToNat (ds : List Char) : Nat :=
  ds.foldl (fun n c => n * 10 + (c.toNat - '0'.toNat)) 0

/-- A JSON number literal: optional minus, integer part without leading
zeros, optional fraction, optional exponent. Returns the rational value and
the remaining input. -/
def parseNumberFrom (cs : List Char) : Option (ℚ × List Char) :=
  let signRest : Bool × List Char :=
    match cs with
    | '-' :: rest => (true, rest)
    | _ => (false, cs)
  let neg := signRest.1
  let cs1 := signRest.2
  let intSplit := cs1.span (fun c => c.isDigit)
  let ds := intSplit.1
  let cs2 := intSplit.2
  if ds.isEmpty then none
  else if 1 < ds.length ∧ ds.head? = some '0' then none
  else
    let fracStep : List Char × List Char :=
      match cs2 with
      | '.' :: r =>
        let fs := (r.span (fun c => c.isDigit)).1
        let r2 := (r.span (fun c => c.isDigit)).2
        if fs.isEmpty then ([], cs2) else (fs, r2)
      | _ => ([], cs2)
    let fs := fracStep.1
    let cs3 := fracStep.2
    let expStep : ℤ × List Char :=
      match cs3 with
      | e :: r =>
        if e = 'e' ∨ e = 'E' then
          let signRest2 : Bool × List Char :=
            match r with
            | '+' :: r2 => (false, r2)
            | '-' :: r2 => (true, r2)
            | _ => (false, r)
          let es := (signRest2.2.span (fun c => c.isDigit)).1
          let r3 := (signRest2.2.span (fun c => c.isDigit)).2
          if es.isEmpty then (0, cs3)
          else ((if signRest2.1 then -(digitsToNat es : ℤ) else (digitsToNat es : ℤ)), r3)
        else (0, cs3)
      | _ => (0, cs3)
    let m : Nat := digitsToNat ds * 10 ^ fs.length + digitsToNat fs
    let sm : ℤ := if neg then -(m : ℤ) else (m : ℤ)
    let k : ℤ := expStep.1 - (fs.length : ℤ)
    let q : ℚ :=
      if 0 ≤ k then mkRat (sm * ((10 ^ k.toNat : Nat) : ℤ)) 1
      else mkRat sm (10 ^ (-k).toNat)
    some (q, expStep.2)

mutual

/-- Fuelled recursive-descent model of `JSON.parse` on a character list:
parses one JSON value and returns it with the remaining input. -/
def parseJsonVal : Nat → List Char → Option (Json × List Char)
  | 0, _ => none
  | fuel + 1, cs0 =>
    let cs := skipWs cs0
    match cs with
    | 'n' :: 'u' :: 'l' :: 'l' :: rest => some (Json.null, rest)
    | 't' :: 'r' :: 'u' :: 'e' :: rest => some (Json.bool true, rest)
    | 'f' :: 'a' :: 'l' :: 's' :: 'e' :: rest => some (Json.bool false, rest)
    | '"' :: rest =>
      match parseStringBody (rest.length + 1) [] rest with
      | some (s, r) => some (Json.str s, r)
      | none => none
    | '[' :: rest =>
      match skipWs rest with
      | ']' :: r => some (Json.arr [], r)
      | rest' => parseArrElems fuel rest' []
    | '{' :: rest =>
      match skipWs rest with
      | '}' :: r => some (Json.obj [], r)
      | rest' => parseObjMembers fuel rest' []
    | _ =>
      match parseNumberFrom cs with
      | some (q, r) => some (Json.num q, r)
      | none => none

/-- Elements of a JSON array after the opening bracket (nonempty case). -/
def parseArrElems : Nat → List Char → List Json → Option (Json × List Char)
  | 0, _, _ => none
  | fuel + 1, cs, acc =>
    match parseJsonVal fuel cs with
    | some (v, r) =>
      match skipWs r with
      | ',' :: r2 => parseArrElems fuel r2 (acc ++ [v])
      | ']' :: r2 => some (Json.arr (acc ++ [v]), r2)
      | _ => none
    | none => none

/-- Members of a JSON object after the opening brace (nonempty case);
duplicate keys collapse with the last occurrence winning, as in
`JSON.parse`. -/
def parseObjMembers : Nat → List Char → List (String × Json) → Option (Json × List Char)
  | 0, _, _ => none
  | fuel + 1, cs, acc =>
    match skipWs cs with
    | '"' :: rest =>
      match parseStringBody (rest.length + 1) [] rest with
      | some (k, r1) =>
        match skipWs r1 with
        | ':' :: r2 =>
          match parseJsonVal fuel r2 with
          | some (v, r3) =>
            match skipWs r3 with
            | ',' :: r4 => parseObjMembers fuel r4 (objInsert acc k v)
            | '}' :: r4 => some (Json.obj (objInsert acc k v), r4)
            | _ => none
          | none => none
        | _ => none
      | none => none
    | _ => none

end

/-- Model of `JSON.parse`: parse one value, require only whitespace to
remain, `none` models a thrown `SyntaxError`. -/
def jsonParse (s : String) : Option Json :=
  match parseJsonVal (2 * s.length + 4) s.data with
  | some (v, rest) => if (skipWs rest).isEmpty then some v else none
  | none => none

/-! The loose first-to-last delimiter extraction.

In `response.match(/\x7b[\s\S]*\x7d/)` (and `/\[[\s\S]*\]/` for themes) the
greedy regex matches the substring from the first opening delimiter to the
last closing delimiter, and fails when no opening delimiter is followed by
a closing one. -/

/-- Index of the first occurrence of a character. -/
def firstIdxOf (c : Char) : List Char → Option Nat
  | [] => none
  | x :: xs => if x = c then some 0 else (firstIdxOf c xs).map (· + 1)

/-- Index of the last occurrence of a character. -/
def lastIdxOf (c : Char) : List Char → Option Nat
  | [] => none
  | x :: xs =>
    match lastIdxOf c xs with
    | some i => some (i + 1)
    | none => if x = c then some 0 else none

/-- The substring matched by the greedy regex `openC [\s\S]* closeC`:
from the first `openC` to the last `closeC`, when the former precedes the
latter. -/
def extractFirstToLast (openC closeC : Char) (s : String) : Option String :=
  match firstIdxOf openC s.data, lastIdxOf closeC s.data with
  | some i, some j =>
    if i < j then some (String.mk ((s.data.drop i).take (j + 1 - i))) else none
  | _, _ => none

/-- Model of `response.match(/\x7b[\s\S]*\x7d/)` in `parseAIResponse`. -/
def extractJsonObject (s : String) : Option String := extractFirstToLast '{' '}' s

/-- Model of `response.match(/\[[\s\S]*\]/)` in `extractThemes`. -/
def extractJsonArray (s : String) : Option String := extractFirstToLast '[' ']' s

/-! Data model (src/db.ts and src/kv.ts interfaces). -/

/-- Feedback interface of src/db.ts; optional TS fields become `Option`. -/
structure Feedback where
  id : String
  source : String
  title : String
  content : String
  label : Option String
  author : Option String
  created_at : String
  raw_metadata : Option String

/-- Thresholds of the immediate-engineering routing rule. -/
structure ImmediateEngineeringThresholds where
  urgency_min : ℚ
  impact_min : ℚ

/-- Thresholds of the quick-win routing rule. -/
structure QuickWinThresholds where
  urgency_max : ℚ
  actionability_min : ℚ

/-- Thresholds of the trust-risk routing rule. -/
structure TrustRiskThresholds where
  sentiment_max : ℚ
  impact_min : ℚ

/-- Routing thresholds of ClassificationRules (src/kv.ts). -/
structure RoutingRules where
  immediate_engineering : ImmediateEngineeringThresholds
  quick_win_backlog : QuickWinThresholds
  trust_risk : TrustRiskThresholds

/-- Keyword hints rendered into the prompt (src/kv.ts). -/
structure UrgencyKeywords where
  critical : List String
  high : List String
  low : List String

/-- Impact-signal hints rendered into the prompt (src/kv.ts). -/
structure ImpactSignals where
  enterprise : List String
  production : List String
  single_user : List String

/-- ClassificationRules interface of src/kv.ts: every threshold field is
present (a complete configuration). -/
structure ClassificationRules where
  routing_rules : RoutingRules
  urgency_keywords : UrgencyKeywords
  impact_signals : ImpactSignals

/-- Default rules hardcoded in ConfigStore.getClassificationRules
(src/kv.ts). -/
def defaultRules : ClassificationRules :=
  { routing_rules :=
      { immediate_engineering := { urgency_min := 4, impact_min := 4 }
        quick_win_backlog := { urgency_max := 2, actionability_min := 4 }
        trust_risk := { sentiment_max := -1, impact_min := 3 } }
    urgency_keywords :=
      { critical := ["security", "vulnerability", "cannot install", "data loss",
          "outage", "production down", "breach", "exploit"]
        high := ["production", "enterprise", "fails consistently", "no workaround",
          "blocked", "critical", "urgent", "forever", "never recovers"]
        low := ["feature request", "nice to have", "suggestion", "question",
          "wondering", "curious", "would be nice"] }
    impact_signals :=
      { enterprise := ["our organization", "our team", "enterprise", "active directory",
          "domain-joined", "cluster", "our company", "multiple users"]
        production := ["production", "live", "customers affected", "revenue",
          "sla", "downtime", "outage"]
        single_user := ["my home", "personal", "hobby", "just me", "learning",
          "testing", "playing around"] } }

/-- The four-axis classification vector: the declared parameter type of
FeedbackClassifier.determineRoute (all four fields are numbers). -/
structure ClassificationVector where
  urgency : ℚ
  sentiment : ℚ
  impact : ℚ
  actionability : ℚ

/-- One chat message handed to the Ai binding. -/
structure Message where
  role : String
  content : String

/-- The LLM capability: model identifier and messages in, response text
out; `Except.error` models the invocation itself throwing (transport
failure, timeout, cancellation). -/
def LLMCall (ε : Type) : Type := String → List Message → Except ε String

/-- Model identifier used for classification and summaries. -/
def classifierModel : String := "@cf/meta/llama-3.1-70b-instruct"

/-- Model identifier used for theme extraction. -/
def themesModel : String := "@cf/meta/llama-3.1-8b-instruct"

/-- System message of the classification call (src/ai.ts lines 19-21). -/
def classifierSystemPrompt : String :=
  "You are a product analyst for cloudflare/cloudflared, an infrastructure tool where reliability and security are critical. Analyze user feedback and return structured JSON only. No explanations outside the JSON."

/-- JS `o || dflt` for an optional string (empty string is falsy). -/
def jsStringOr (o : Option String) (dflt : String) : String :=
  match o with
  | some s => if s = "" then dflt else s
  | none => dflt

/-- FeedbackClassifier.buildClassificationPrompt: the fixed-structure
template literal with the feedback fields and the configured keyword lists
interpolated (literal braces of the JSON example are written with
hexadecimal escapes). -/
def buildClassificationPrompt (feedback : Feedback) (rules : ClassificationRules) : String :=
  String.intercalate "\n"
    [ ""
    , "Analyze this feedback and classify it according to our framework."
    , ""
    , "## Feedback"
    , "- **Source**: " ++ feedback.source
    , "- **Title**: " ++ feedback.title
    , "- **Label**: " ++ jsStringOr feedback.label "None"
    , "- **Content**: " ++ feedback.content
    , ""
    , "## Classification Framework"
    , ""
    , "### Urgency (1-5)"
    , "- 1: Low - General questions, nice-to-haves"
    , "- 2: Moderate - Minor friction, workarounds exist"
    , "- 3: High - Functionality degraded, needs attention"
    , "- 4: Severe - Production affected, no workaround (even if reported calmly)"
    , "- 5: Critical - Security risk, installation blocked, complete outage"
    , ""
    , "**Critical keywords**: " ++ String.intercalate ", " rules.urgency_keywords.critical
    , "**High keywords**: " ++ String.intercalate ", " rules.urgency_keywords.high
    , "**Low keywords**: " ++ String.intercalate ", " rules.urgency_keywords.low
    , ""
    , "IMPORTANT: Security concerns should be minimum Urgency 3. Installation failures should be minimum Urgency 4. Calm tone does NOT reduce urgency - score based on technical severity."
    , ""
    , "### Sentiment (-2 to +2)"
    , "- -2: Frustrated (explicit frustration, strong negative language, ALL CAPS, \"ridiculous\", \"unacceptable\")"
    , "- -1: Dissatisfied (pain points, mild complaints, \"a pain\", \"frustrating\")"
    , "- 0: Neutral (factual reporting, no emotional indicators)"
    , "- +1: Appreciative (thanks, acknowledges good work, \"great product\")"
    , "- +2: Enthusiastic (strong praise, advocacy)"
    , ""
    , "### Impact (1-5)"
    , "- 1: Minimal - Single user curiosity"
    , "- 2: Low - Individual inconvenience, easy workaround"
    , "- 3: Moderate - Team/environment affected, painful workaround"
    , "- 4: High - Production degraded, enterprise environment, blocks adoption"
    , "- 5: Severe - Complete breakage, affects all users, security/data risk"
    , ""
    , "**Enterprise signals**: " ++ String.intercalate ", " rules.impact_signals.enterprise
    , "**Production signals**: " ++ String.intercalate ", " rules.impact_signals.production
    , "**Single user signals**: " ++ String.intercalate ", " rules.impact_signals.single_user
    , ""
    , "### Actionability (1-5)"
    , "- 1: Unclear - Vague, missing context"
    , "- 2: Needs Info - Some detail but requires follow-up"
    , "- 3: Partially Actionable - Clear problem, uncertain solution"
    , "- 4: Actionable - Clear problem + environment + steps"
    , "- 5: Immediately Actionable - Clear bug with repro steps, obvious fix path"
    , ""
    , "## Response Format"
    , "Return ONLY valid JSON (no markdown, no explanation):"
    , "\x7b"
    , "  \"classification\": \x7b"
    , "    \"urgency\": <1-5>,"
    , "    \"sentiment\": <-2 to 2>,"
    , "    \"impact\": <1-5>,"
    , "    \"actionability\": <1-5>"
    , "  \x7d,"
    , "  \"signals\": ["
    , "    \x7b\"signal_type\": \"feature_area\", \"signal_value\": \"<area like tunnels, installation, authentication>\", \"confidence\": <0-1>\x7d,"
    , "    \x7b\"signal_type\": \"user_segment\", \"signal_value\": \"<segment like enterprise, hobbyist, developer>\", \"confidence\": <0-1>\x7d,"
    , "    \x7b\"signal_type\": \"issue_category\", \"signal_value\": \"<category like bug, feature_request, question, documentation>\", \"confidence\": <0-1>\x7d"
    , "  ],"
    , "  \"confidence\": <0-1>,"
    , "  \"reasoning\": \"<1-2 sentence explanation of scores>\""
    , "\x7d"
    , "" ]

/-- Messages of the classification invocation. -/
def classifyMessages (feedback : Feedback) (rules : ClassificationRules) : List Message :=
  [⟨"system", classifierSystemPrompt⟩, ⟨"user", buildClassificationPrompt feedback rules⟩]

/-! Response parsing, validation and the conservative-default fallback. -/

/-- The conservative default classification substituted on parse failure. -/
def fallbackClassification : Json :=
  Json.obj [("urgency", Json.num 3), ("sentiment", Json.num 0),
    ("impact", Json.num 3), ("actionability", Json.num 2)]

/-- The fixed explanatory reasoning string of the fallback. -/
def fallbackReasoning : String :=
  "Failed to parse AI response, using conservative defaults"

/-- The full object returned by parseAIResponse on any failure. -/
def fallbackParsed : Json :=
  Json.obj [("classification", fallbackClassification), ("signals", Json.arr []),
    ("confidence", Json.num (3 / 10)), ("reasoning", Json.str fallbackReasoning)]

/-- Validation in parseAIResponse: `!parsed.classification ||
typeof parsed.classification.urgency !== "number"` throws, i.e. the value
is accepted when `classification` is truthy and its `urgency` member is a
number (member access on a non-object yields `undefined`, hence `none`). -/
def hasValidClassification (parsed : Json) : Bool :=
  match jsLookup parsed "classification" with
  | some c =>
    jsTruthy c &&
      (match jsLookup c "urgency" with
       | some (Json.num _) => true
       | _ => false)
  | none => false

/-- FeedbackClassifier.parseAIResponse: extract the first-to-last-brace
substring, parse it as JSON, validate the shape; any failure is caught and
replaced by the fixed conservative default object. -/
def parseAIResponse (response : String) : Json :=
  match extractJsonObject response with
  | none => fallbackParsed
  | some sub =>
    match jsonParse sub with
    | none => fallbackParsed
    | some parsed => if hasValidClassification parsed then parsed else fallbackParsed

/-! Route determination. -/

/-- FeedbackClassifier.determineRoute under its declared parameter type
(urgency, sentiment, impact, actionability all numbers): evaluate the three
predicates in order, pushing each matched label, and join with commas, with
standard_backlog when none matched. -/
def determineRoute (classification : ClassificationVector) (rules : ClassificationRules) : String :=
  let routes : List String := []
  let routes :=
    if classification.urgency ≥ rules.routing_rules.immediate_engineering.urgency_min ∧
        classification.impact ≥ rules.routing_rules.immediate_engineering.impact_min then
      routes ++ ["immediate_engineering"]
    else routes
  let routes :=
    if classification.urgency ≤ rules.routing_rules.quick_win_backlog.urgency_max ∧
        classification.actionability ≥ rules.routing_rules.quick_win_backlog.actionability_min then
      routes ++ ["quick_win_backlog"]
    else routes
  let routes :=
    if classification.sentiment ≤ rules.routing_rules.trust_risk.sentiment_max ∧
        classification.impact ≥ rules.routing_rules.trust_risk.impact_min then
      routes ++ ["trust_risk"]
    else routes
  if 0 < routes.length then String.intercalate "," routes else "standard_backlog"

/-- JS ToNumber of a JSON value, for `>=`/`<=` against a number: numbers
are themselves, null is 0, booleans 0/1, strings parse as decimal numeric
literals (empty and blank strings are 0); arrays and objects are not
modelled (treated as NaN; no JSON value of this pipeline is compared as
one). -/
def jsToNumber : Json → Option ℚ
  | Json.num q => some q
  | Json.null => some 0
  | Json.bool b => some (if b then 1 else 0)
  | Json.str s =>
    let t := ((s.data.dropWhile isJsonWs).reverse.dropWhile isJsonWs).reverse
    if t.isEmpty then some 0
    else
      match parseNumberFrom t with
      | some (q, rest) => if rest.isEmpty then some q else none
      | none => none
  | _ => none

/-- JS `v >= t` where `t` is a number and `v` a possibly-undefined JSON
value: comparisons against NaN (undefined, unparseable) are false. -/
def jsGe (v : Option Json) (t : ℚ) : Bool :=
  match v.bind jsToNumber with
  | some q => t ≤ q
  | none => false

/-- JS `v <= t` where `t` is a number. -/
def jsLe (v : Option Json) (t : ℚ) : Bool :=
  match v.bind jsToNumber with
  | some q => q ≤ t
  | none => false

/-- JS member access on a possibly-undefined value. -/
def jsField (c : Option Json) (k : String) : Option Json :=
  c.bind (fun j => jsLookup j k)

/-- FeedbackClassifier.determineRoute as executed at its call site, where
the classification argument is untyped parsed JSON (`any`): the same three
predicates with JS comparison semantics on dynamic fields. -/
def determineRouteDyn (classification : Option Json) (rules : ClassificationRules) : String :=
  let routes : List String := []
  let routes :=
    if jsGe (jsField classification "urgency") rules.routing_rules.immediate_engineering.urgency_min &&
        jsGe (jsField classification "impact") rules.routing_rules.immediate_engineering.impact_min then
      routes ++ ["immediate_engineering"]
    else routes
  let routes :=
    if jsLe (jsField classification "urgency") rules.routing_rules.quick_win_backlog.urgency_max &&
        jsGe (jsField classification "actionability") rules.routing_rules.quick_win_backlog.actionability_min then
      routes ++ ["quick_win_backlog"]
    else routes
  let routes :=
    if jsLe (jsField classification "sentiment") rules.routing_rules.trust_risk.sentiment_max &&
        jsGe (jsField classification "impact") rules.routing_rules.trust_risk.impact_min then
      routes ++ ["trust_risk"]
    else routes
  if 0 < routes.length then String.intercalate "," routes else "standard_backlog"

/-! The classification pipeline. -/

/-- Failure of classifyFeedback: a transport error thrown by the Ai
binding, or the TypeError thrown by `result.signals.map` when the accepted
parsed value carries a non-array `signals` member. -/
inductive ClassifyError (ε : Type) where
  | transport (e : ε) : ClassifyError ε
  | typeErr : ClassifyError ε

/-- The value classifyFeedback resolves with. -/
structure ClassifyOutput where
  classification : Json
  signals : List Json

/-- Assembly of the returned classification object:
`\x7b feedback_id: feedback.id, ...result.classification, route, confidence:
result.confidence, reasoning: result.reasoning \x7d` (a member assigned
`undefined` is modelled as absent, its JSON-observable behaviour). -/
def assembleClassification (feedback : Feedback) (result : Json) (route : String) : Json :=
  jsSetOpt
    (jsSetOpt
      (jsSet
        (jsSpread (Json.obj [("feedback_id", Json.str feedback.id)])
          ((jsLookup result "classification").getD Json.null))
        "route" (Json.str route))
      "confidence" (jsLookup result "confidence"))
    "reasoning" (jsLookup result "reasoning")

/-- Mapping of one parsed signal object:
`\x7b feedback_id: feedback.id, ...s \x7d`. -/
def stampSignal (feedback : Feedback) (s : Json) : Json :=
  jsSpread (Json.obj [("feedback_id", Json.str feedback.id)]) s

/-- FeedbackClassifier.classifyFeedback: build the prompt, invoke the LLM
capability (a thrown invocation propagates as `transport`), parse the
response with fallback, determine the route from the resulting
classification, and assemble the classification object and the stamped
signals. -/
def classifyFeedback {ε : Type} (feedback : Feedback) (rules : ClassificationRules)
    (ai : LLMCall ε) : Except (ClassifyError ε) ClassifyOutput :=
  match ai classifierModel (classifyMessages feedback rules) with
  | Except.error e => Except.error (ClassifyError.transport e)
  | Except.ok response =>
    let result := parseAIResponse response
    let route := determineRouteDyn (jsLookup result "classification") rules
    match jsLookup result "signals" with
    | some (Json.arr sigs) =>
      Except.ok ⟨assembleClassification feedback result route, sigs.map (stampSignal feedback)⟩
    | _ => Except.error ClassifyError.typeErr

/-! Theme extraction. -/

/-- System message of the theme-extraction call. -/
def themesSystemPrompt : String := "Extract themes from feedback. Return only JSON array."

/-- The rendered feedback list of extractThemes: first 20 items, title plus
the first 200 characters of the content. -/
def buildThemesSummary (items : List Feedback) : String :=
  String.intercalate "\n"
    ((items.take 20).map (fun f => "- " ++ f.title ++ ": " ++ f.content.take 200))

/-- The theme-extraction prompt. -/
def buildThemesPrompt (items : List Feedback) (limit : Nat) : String :=
  "\nAnalyze these feedback items and extract the " ++ toString limit ++
    " most common themes or topics.\n\nFeedback:\n" ++ buildThemesSummary items ++
    "\n\nReturn ONLY a JSON array of theme strings, e.g.: [\"theme1\", \"theme2\", \"theme3\"]\n"

/-- Messages of the theme-extraction invocation. -/
def themesMessages (items : List Feedback) (limit : Nat) : List Message :=
  [⟨"system", themesSystemPrompt⟩, ⟨"user", buildThemesPrompt items limit⟩]

/-- FeedbackClassifier.extractThemes: empty input short-circuits to `[]`;
otherwise invoke the smaller model (a thrown invocation propagates), then
locate the first-to-last-bracket substring and parse it, returning `[]` on
any extraction or parse failure (the catch block falls through to
`return []`). A matched substring starts with an opening bracket, so a
successful parse is always an array. -/
def extractThemes {ε : Type} (feedbackItems : List Feedback) (limit : Nat)
    (ai : LLMCall ε) : Except ε (List Json) :=
  if feedbackItems.length = 0 then Except.ok []
  else
    match ai themesModel (themesMessages feedbackItems limit) with
    | Except.error e => Except.error e
    | Except.ok response =>
      match extractJsonArray response with
      | some sub =>
        match jsonParse sub with
        | some (Json.arr l) => Except.ok l
        | some _ => Except.ok []
        | none => Except.ok []
      | none => Except.ok []

/-! Auxiliary definitions for the statements and proofs. -/

/-- A key does not occur in a member list. -/
def keyAbsent (k : String) (kvs : List (String × Json)) : Bool :=
  kvs.all (fun p => ¬ p.1 = k)

/-- Keys of a member list are pairwise distinct. -/
def keysNodup : List (String × Json) → Bool
  | [] => true
  | (k, _) :: rest => keyAbsent k rest && keysNodup rest

mutual

/-- Well-formedness of a JSON value as a JS runtime value: every object
member list has pairwise-distinct keys (which `JSON.parse` guarantees). -/
def jsonWfB : Json → Bool
  | Json.null => true
  | Json.bool _ => true
  | Json.num _ => true
  | Json.str _ => true
  | Json.arr l => jsonListWfB l
  | Json.obj kvs => keysNodup kvs && jsonMembersWfB kvs

/-- Well-formedness of every element of a JSON array. -/
def jsonListWfB : List Json → Bool
  | [] => true
  | x :: xs => jsonWfB x && jsonListWfB xs

/-- Well-formedness of every member value of a JSON object. -/
def jsonMembersWfB : List (String × Json) → Bool
  | [] => true
  | (_, v) :: rest => jsonWfB v && jsonMembersWfB rest

end

/-- The classification vector as the JSON object determineRoute receives at
its call site. -/
def vecJson (v : ClassificationVector) : Json :=
  Json.obj [("urgency", Json.num v.urgency), ("sentiment", Json.num v.sentiment),
    ("impact", Json.num v.impact), ("actionability", Json.num v.actionability)]

/-- Modelled from the spec (4.1), for comparison with the source's
determineRoute: each of the three independent predicates contributes its
label — immediate_engineering iff urgency ≥ urgency_min and impact ≥
impact_min, quick_win_backlog iff urgency ≤ urgency_max and actionability ≥
actionability_min, trust_risk iff sentiment ≤ sentiment_max and impact ≥
impact_min — in the fixed order. -/
def routeSpecLabels (v : ClassificationVector) (rules : ClassificationRules) : List String :=
  (if v.urgency ≥ rules.routing_rules.immediate_engineering.urgency_min ∧
      v.impact ≥ rules.routing_rules.immediate_engineering.impact_min then
    ["immediate_engineering"]
  else []) ++
  (if v.urgency ≤ rules.routing_rules.quick_win_backlog.urgency_max ∧
      v.actionability ≥ rules.routing_rules.quick_win_backlog.actionability_min then
    ["quick_win_backlog"]
  else []) ++
  (if v.sentiment ≤ rules.routing_rules.trust_risk.sentiment_max ∧
      v.impact ≥ rules.routing_rules.trust_risk.impact_min then
    ["trust_risk"]
  else [])

/-- Modelled from the spec (4.1): the matched labels comma-joined in the
fixed order, the single label standard_backlog when none match. -/
def routeSpec (v : ClassificationVector) (rules : ClassificationRules) : String :=
  if routeSpecLabels v rules = [] then "standard_backlog"
  else String.intercalate "," (routeSpecLabels v rules)

/-- A concrete feedback item used to instantiate witnesses. -/
def fbEx : Feedback :=
  { id := "gh-042", source := "github", title := "t", content := "c",
    label := none, author := none, created_at := "2024-01-01", raw_metadata := none }

/-! Helper lemmas: first/last index characterisation. -/

theorem firstIdxOf_some_spec (c : Char) :
    ∀ (cs : List Char) (i : Nat), firstIdxOf c cs = some i →
      cs[i]? = some c ∧ ∀ k : Nat, k < i → cs[k]? ≠ some c := by
  intro cs
  induction cs with
  | nil => intro i h; simp [firstIdxOf] at h
  | cons x xs ih =>
    intro i h
    by_cases hx : x = c
    · simp [firstIdxOf, hx] at h
      subst h
      exact ⟨by simp [hx], by intro k hk; omega⟩
    · simp [firstIdxOf, hx] at h
      obtain ⟨i', hi', rfl⟩ := h
      obtain ⟨h1, h2⟩ := ih i' hi'
      refine ⟨by simpa using h1, ?_⟩
      intro k hk
      cases k with
      | zero => simp [hx]
      | succ k =>
        have := h2 k (by omega)
        simpa using this

theorem firstIdxOf_none_spec (c : Char) :
    ∀ (cs : List Char), firstIdxOf c cs = none → ∀ k : Nat, cs[k]? ≠ some c := by
  intro cs
  induction cs with
  | nil => intro _ k; simp
  | cons x xs ih =>
    intro h k
    by_cases hx : x = c
    · simp [firstIdxOf, hx] at h
    · simp [firstIdxOf, hx] at h
      cases k with
      | zero => simp [hx]
      | succ k => simpa using ih h k

theorem firstIdxOf_isSome_of_mem (c : Char) :
    ∀ (cs : List Char) (k : Nat), cs[k]? = some c → (firstIdxOf c cs).isSome := by
  intro cs
  induction cs with
  | nil => intro k h; simp at h
  | cons x xs ih =>
    intro k h
    by_cases hx : x = c
    · simp [firstIdxOf, hx]
    · cases k with
      | zero => simp at h; exact absurd h hx
      | succ k =>
        simp only [List.getElem?_cons_succ] at h
        rcases Option.isSome_iff_exists.mp (ih k h) with ⟨i, hi⟩
        simp [firstIdxOf, hx, hi]

theorem lastIdxOf_none_spec (c : Char) :
    ∀ (cs : List Char), lastIdxOf c cs = none → ∀ k : Nat, cs[k]? ≠ some c := by
  intro cs
  induction cs with
  | nil => intro _ k; simp
  | cons x xs ih =>
    intro h k
    rcases hxs : lastIdxOf c xs with _ | i
    · simp [lastIdxOf, hxs] at h
      cases k with
      | zero => simp [h]
      | succ k => simpa using ih hxs k
    · simp [lastIdxOf, hxs] at h

theorem lastIdxOf_some_spec (c : Char) :
    ∀ (cs : List Char) (j : Nat), lastIdxOf c cs = some j →
      cs[j]? = some c ∧ ∀ k : Nat, j < k → cs[k]? ≠ some c := by
  intro cs
  induction cs with
  | nil => intro j h; simp [lastIdxOf] at h
  | cons x xs ih =>
    intro j h
    rcases hxs : lastIdxOf c xs with _ | i
    · simp [lastIdxOf, hxs] at h
      obtain ⟨hc, hj⟩ := h
      subst hj
      refine ⟨by simp [hc], ?_⟩
      intro k hk
      cases k with
      | zero => omega
      | succ k => simpa using lastIdxOf_none_spec c xs hxs k
    · simp [lastIdxOf, hxs] at h
      subst h
      obtain ⟨h1, h2⟩ := ih i hxs
      refine ⟨by simpa using h1, ?_⟩
      intro k hk
      cases k with
      | zero => omega
      | succ k =>
        have := h2 k (by omega)
        simpa using this

theorem lastIdxOf_isSome_of_mem (c : Char) :
    ∀ (cs : List Char) (k : Nat), cs[k]? = some c → (lastIdxOf c cs).isSome := by
  intro cs
  induction cs with
  | nil => intro k h; simp at h
  | cons x xs ih =>
    intro k h
    rcases hxs : lastIdxOf c xs with _ | i
    · cases k with
      | zero =>
        simp at h
        simp [lastIdxOf, hxs, h]
      | succ k =>
        simp only [List.getElem?_cons_succ] at h
        have := ih k h
        rw [hxs] at this
        simp at this
    · simp [lastIdxOf, hxs]

/-! Helper lemmas: JS object operations. -/

theorem objLookup_objInsert_self :
    ∀ (kvs : List (String × Json)) (k : String) (v : Json),
      objLookup (objInsert kvs k v) k = some v := by
  intro kvs k v
  induction kvs with
  | nil => simp [objInsert, objLookup]
  | cons p rest ih =>
    obtain ⟨k', v'⟩ := p
    by_cases h : k' = k
    · simp [objInsert, h, objLookup]
    · simp [objInsert, h, objLookup, ih]

theorem objLookup_objInsert_other :
    ∀ (kvs : List (String × Json)) (k : String) (v : Json) (k₂ : String), ¬ k = k₂ →
      objLookup (objInsert kvs k v) k₂ = objLookup kvs k₂ := by
  intro kvs k v k₂ hne
  induction kvs with
  | nil => simp [objInsert, objLookup, hne]
  | cons p rest ih =>
    obtain ⟨k', v'⟩ := p
    by_cases h : k' = k
    · simp [objInsert, h, objLookup, hne]
    · simp [objInsert, h, objLookup, ih]

theorem objLookup_none_iff :
    ∀ (kvs : List (String × Json)) (k : String),
      objLookup kvs k = none ↔ ∀ p ∈ kvs, ¬ p.1 = k := by
  intro kvs k
  induction kvs with
  | nil => simp [objLookup]
  | cons p rest ih =>
    obtain ⟨k', v'⟩ := p
    by_cases h : k' = k
    · simp [objLookup, h]
    · simp [objLookup, h, ih]

theorem jsLookup_jsSet_other (j : Json) (k' : String) (v : Json) (k : String) (h : ¬ k' = k) :
    jsLookup (jsSet j k' v) k = jsLookup j k := by
  cases j <;> simp [jsSet, jsLookup]
  exact objLookup_objInsert_other _ _ _ _ h

theorem objLookup_filter_other :
    ∀ (kvs : List (String × Json)) (k' k : String), ¬ k' = k →
      objLookup (kvs.filter (fun p => ¬ p.1 = k')) k = objLookup kvs k := by
  intro kvs k' k hne
  induction kvs with
  | nil => simp
  | cons p rest ih =>
    obtain ⟨k₁, v₁⟩ := p
    simp only [decide_not] at ih
    by_cases h : k₁ = k'
    · have h2 : ¬ k₁ = k := by rw [h]; exact hne
      simp [List.filter_cons, h, hne, h2, objLookup, ih, decide_not]
    · simp [List.filter_cons, h, objLookup, ih, decide_not]

theorem jsLookup_jsRemove_other (j : Json) (k' k : String) (h : ¬ k' = k) :
    jsLookup (jsRemove j k') k = jsLookup j k := by
  cases j with
  | obj kvs =>
    have := objLookup_filter_other kvs k' k h
    simpa [jsRemove, jsLookup] using this
  | null => rfl
  | bool b => rfl
  | num q => rfl
  | str s => rfl
  | arr l => rfl

theorem jsLookup_jsSetOpt_other (j : Json) (k' : String) (o : Option Json) (k : String)
    (h : ¬ k' = k) : jsLookup (jsSetOpt j k' o) k = jsLookup j k := by
  cases o with
  | none => exact jsLookup_jsRemove_other j k' k h
  | some v => exact jsLookup_jsSet_other j k' v k h

theorem jsSpread_obj_cons (t : Json) (k : String) (v : Json) (rest : List (String × Json)) :
    jsSpread t (Json.obj ((k, v) :: rest)) = jsSpread (jsSet t k v) (Json.obj rest) := rfl

theorem jsLookup_jsSpread_of_absent :
    ∀ (src : List (String × Json)) (t : Json) (k : String), (∀ p ∈ src, ¬ p.1 = k) →
      jsLookup (jsSpread t (Json.obj src)) k = jsLookup t k := by
  intro src
  induction src with
  | nil => intro t k _; rfl
  | cons p rest ih =>
    intro t k h
    obtain ⟨k₁, v₁⟩ := p
    have hk : ¬ k₁ = k := h (k₁, v₁) (List.mem_cons_self _ _)
    rw [jsSpread_obj_cons, ih (jsSet t k₁ v₁) k (fun p hp => h p (List.mem_cons_of_mem _ hp))]
    exact jsLookup_jsSet_other t k₁ v₁ k hk

theorem keyAbsent_forall {k : String} {kvs : List (String × Json)}
    (h : keyAbsent k kvs = true) : ∀ p ∈ kvs, ¬ p.1 = k := by
  intro p hp
  have := List.all_eq_true.mp h p hp
  simpa using this

theorem jsLookup_jsSpread_obj_of_lookup :
    ∀ (src : List (String × Json)) (t : List (String × Json)) (k : String) (v : Json),
      keysNodup src = true → objLookup src k = some v →
      jsLookup (jsSpread (Json.obj t) (Json.obj src)) k = some v := by
  intro src
  induction src with
  | nil => intro t k v _ h; simp [objLookup] at h
  | cons p rest ih =>
    intro t k v hnd h
    obtain ⟨k₁, v₁⟩ := p
    have hnd' : keyAbsent k₁ rest = true ∧ keysNodup rest = true := by
      simpa [keysNodup, Bool.and_eq_true] using hnd
    by_cases hk : k₁ = k
    · subst hk
      simp [objLookup] at h
      subst h
      rw [jsSpread_obj_cons]
      have habs : ∀ p ∈ rest, ¬ p.1 = k₁ := keyAbsent_forall hnd'.1
      rw [jsLookup_jsSpread_of_absent rest (jsSet (Json.obj t) k₁ v₁) k₁ habs]
      simp [jsSet, jsLookup, objLookup_objInsert_self]
    · simp [objLookup, hk] at h
      rw [jsSpread_obj_cons]
      exact ih (objInsert t k₁ v₁) k v hnd'.2 h

/-! Helper lemmas: well-formedness of parsed JSON. -/

theorem keyAbsent_objInsert :
    ∀ (kvs : List (String × Json)) (k : String) (v : Json) (k₂ : String),
      keyAbsent k₂ kvs = true → ¬ k = k₂ → keyAbsent k₂ (objInsert kvs k v) = true := by
  intro kvs k v k₂ habs hne
  induction kvs with
  | nil =>
    simp only [objInsert, keyAbsent, List.all_cons, List.all_nil, Bool.and_true]
    simpa using hne
  | cons p rest ih =>
    obtain ⟨k₁, v₁⟩ := p
    simp only [keyAbsent, List.all_cons, Bool.and_eq_true] at habs
    by_cases h : k₁ = k
    · simp only [objInsert, if_pos h, keyAbsent, List.all_cons, Bool.and_eq_true]
      exact ⟨by simpa using hne, habs.2⟩
    · simp only [objInsert, if_neg h, keyAbsent, List.all_cons, Bool.and_eq_true]
      exact ⟨habs.1, ih habs.2⟩

theorem keysNodup_objInsert :
    ∀ (kvs : List (String × Json)) (k : String) (v : Json),
      keysNodup kvs = true → keysNodup (objInsert kvs k v) = true := by
  intro kvs k v hnd
  induction kvs with
  | nil => simp [objInsert, keysNodup, keyAbsent]
  | cons p rest ih =>
    obtain ⟨k₁, v₁⟩ := p
    simp only [keysNodup, Bool.and_eq_true] at hnd
    by_cases h : k₁ = k
    · subst h
      simp [objInsert, keysNodup, Bool.and_eq_true, hnd.1, hnd.2]
    · have hne : ¬ k = k₁ := fun hh => h hh.symm
      simp [objInsert, h, keysNodup, Bool.and_eq_true,
        keyAbsent_objInsert rest k v k₁ hnd.1 hne, ih hnd.2]

theorem jsonMembersWfB_objInsert :
    ∀ (kvs : List (String × Json)) (k : String) (v : Json),
      jsonMembersWfB kvs = true → jsonWfB v = true →
      jsonMembersWfB (objInsert kvs k v) = true := by
  intro kvs k v hm hv
  induction kvs with
  | nil => simp [objInsert, jsonMembersWfB, hv]
  | cons p rest ih =>
    obtain ⟨k₁, v₁⟩ := p
    simp only [jsonMembersWfB, Bool.and_eq_true] at hm
    by_cases h : k₁ = k
    · simp [objInsert, h, jsonMembersWfB, Bool.and_eq_true, hv, hm.2]
    · simp [objInsert, h, jsonMembersWfB, Bool.and_eq_true, hm.1, ih hm.2]

theorem jsonListWfB_append :
    ∀ (l : List Json) (x : Json), jsonListWfB l = true → jsonWfB x = true →
      jsonListWfB (l ++ [x]) = true := by
  intro l x hl hx
  induction l with
  | nil => simp [jsonListWfB, hx]
  | cons y ys ih =>
    simp only [jsonListWfB, Bool.and_eq_true] at hl
    simp [jsonListWfB, Bool.and_eq_true, hl.1, ih hl.2]

theorem jsonListWfB_mem :
    ∀ (l : List Json) (x : Json), jsonListWfB l = true → x ∈ l → jsonWfB x = true := by
  intro l x hl hx
  induction l with
  | nil => simp at hx
  | cons y ys ih =>
    simp only [jsonListWfB, Bool.and_eq_true] at hl
    rcases List.mem_cons.mp hx with h | h
    · subst h; exact hl.1
    · exact ih hl.2 h

theorem jsonMembersWfB_lookup :
    ∀ (kvs : List (String × Json)) (k : String) (v : Json),
      jsonMembersWfB kvs = true → objLookup kvs k = some v → jsonWfB v = true := by
  intro kvs k v hm h
  induction kvs with
  | nil => simp [objLookup] at h
  | cons p rest ih =>
    obtain ⟨k₁, v₁⟩ := p
    simp only [jsonMembersWfB, Bool.and_eq_true] at hm
    by_cases hk : k₁ = k
    · simp [objLookup, hk] at h
      subst h
      exact hm.1
    · simp [objLookup, hk] at h
      exact ih hm.2 h

theorem jsonWfB_lookup (j : Json) (k : String) (v : Json)
    (hw : jsonWfB j = true) (h : jsLookup j k = some v) : jsonWfB v = true := by
  cases j with
  | obj kvs =>
    simp only [jsonWfB, Bool.and_eq_true] at hw
    exact jsonMembersWfB_lookup kvs k v hw.2 h
  | null => simp [jsLookup] at h
  | bool b => simp [jsLookup] at h
  | num q => simp [jsLookup] at h
  | str s => simp [jsLookup] at h
  | arr l => simp [jsLookup] at h

theorem jsonWfB_obj_nodup (kvs : List (String × Json))
    (hw : jsonWfB (Json.obj kvs) = true) : keysNodup kvs = true := by
  simp only [jsonWfB, Bool.and_eq_true] at hw
  exact hw.1

theorem jsonWfB_obj_members (kvs : List (String × Json))
    (hw : jsonWfB (Json.obj kvs) = true) : jsonMembersWfB kvs = true := by
  simp only [jsonWfB, Bool.and_eq_true] at hw
  exact hw.2

/-! The parser invariant: every value produced by the model of JSON.parse
is well-formed (all object member lists have pairwise-distinct keys). -/

theorem parseWfAux : ∀ fuel : Nat,
    (∀ cs v rest, parseJsonVal fuel cs = some (v, rest) → jsonWfB v = true) ∧
    (∀ cs acc v rest, jsonListWfB acc = true →
      parseArrElems fuel cs acc = some (v, rest) → jsonWfB v = true) ∧
    (∀ cs acc v rest, keysNodup acc = true → jsonMembersWfB acc = true →
      parseObjMembers fuel cs acc = some (v, rest) → jsonWfB v = true) := by
  intro fuel
  induction fuel with
  | zero =>
    refine ⟨?_, ?_, ?_⟩
    · intro cs v rest h; simp [parseJsonVal] at h
    · intro cs acc v rest _ h; simp [parseArrElems] at h
    · intro cs acc v rest _ _ h; simp [parseObjMembers] at h
  | succ fuel ih =>
    obtain ⟨ihV, ihA, ihO⟩ := ih
    refine ⟨?_, ?_, ?_⟩
    · intro cs v rest h
      simp only [parseJsonVal] at h
      split at h
      · simp only [Option.some.injEq, Prod.mk.injEq] at h
        rw [← h.1]; rfl
      · simp only [Option.some.injEq, Prod.mk.injEq] at h
        rw [← h.1]; rfl
      · simp only [Option.some.injEq, Prod.mk.injEq] at h
        rw [← h.1]; rfl
      · split at h
        · simp only [Option.some.injEq, Prod.mk.injEq] at h
          rw [← h.1]; rfl
        · simp at h
      · split at h
        · simp only [Option.some.injEq, Prod.mk.injEq] at h
          rw [← h.1]; rfl
        · exact ihA _ [] _ _ rfl h
      · split at h
        · simp only [Option.some.injEq, Prod.mk.injEq] at h
          rw [← h.1]; rfl
        · exact ihO _ [] _ _ rfl rfl h
      · split at h
        · simp only [Option.some.injEq, Prod.mk.injEq] at h
          rw [← h.1]; rfl
        · simp at h
    · intro cs acc v rest hacc h
      simp only [parseArrElems] at h
      split at h
      · rename_i v₀ r heq
        split at h
        · exact ihA _ _ _ _ (jsonListWfB_append acc v₀ hacc (ihV _ _ _ heq)) h
        · simp only [Option.some.injEq, Prod.mk.injEq] at h
          rw [← h.1]
          exact jsonListWfB_append acc v₀ hacc (ihV _ _ _ heq)
        · simp at h
      · simp at h
    · intro cs acc v rest hnd hm h
      simp only [parseObjMembers] at h
      split at h
      · split at h
        · rename_i k r1 heqS
          split at h
          · split at h
            · rename_i v₀ r3 heqV
              split at h
              · exact ihO _ _ _ _ (keysNodup_objInsert acc k v₀ hnd)
                  (jsonMembersWfB_objInsert acc k v₀ hm (ihV _ _ _ heqV)) h
              · simp only [Option.some.injEq, Prod.mk.injEq] at h
                rw [← h.1]
                have h1 := keysNodup_objInsert acc k v₀ hnd
                have h2 := jsonMembersWfB_objInsert acc k v₀ hm (ihV _ _ _ heqV)
                simp only [jsonWfB, Bool.and_eq_true]
                exact ⟨h1, h2⟩
              · simp at h
            · simp at h
          · simp at h
        · simp at h
      · simp at h

theorem jsonParse_wf (s : String) (j : Json) (h : jsonParse s = some j) :
    jsonWfB j = true := by
  unfold jsonParse at h
  rcases hp : parseJsonVal (2 * s.length + 4) s.data with _ | ⟨v, rest⟩
  · rw [hp] at h; simp at h
  · rw [hp] at h
    by_cases hw : (skipWs rest).isEmpty
    · simp only [hw, if_true] at h
      injection h with h
      rw [← h]
      exact (parseWfAux _).1 _ _ _ hp
    · simp [hw] at h

/-! Helper lemmas: route determination glue and validation shape. -/

theorem jsGe_num (q t : ℚ) : jsGe (some (Json.num q)) t = decide (t ≤ q) := rfl

theorem jsLe_num (q t : ℚ) : jsLe (some (Json.num q)) t = decide (q ≤ t) := rfl

theorem determineRouteDyn_vecJson (v : ClassificationVector) (rules : ClassificationRules) :
    determineRouteDyn (some (vecJson v)) rules = determineRoute v rules := by
  have hu : jsField (some (vecJson v)) "urgency" = some (Json.num v.urgency) := rfl
  have hs : jsField (some (vecJson v)) "sentiment" = some (Json.num v.sentiment) := rfl
  have hi : jsField (some (vecJson v)) "impact" = some (Json.num v.impact) := rfl
  have ha : jsField (some (vecJson v)) "actionability" = some (Json.num v.actionability) := rfl
  simp only [determineRouteDyn, hu, hs, hi, ha, jsGe_num, jsLe_num, Bool.and_eq_true,
    decide_eq_true_eq, determineRoute, ge_iff_le]

theorem jsTruthy_of_lookup (c : Json) (k : String) (v : Json) (h : jsLookup c k = some v) :
    jsTruthy c = true := by
  cases c <;> simp [jsLookup, jsTruthy] at h ⊢

/-! Claim theorems. -/

/-- C1: for every ClassificationVector and complete RuleConfiguration,
determineRoute evaluates exactly the three independent predicates —
immediate_engineering iff urgency ≥ urgency_min and impact ≥ impact_min,
quick_win_backlog iff urgency ≤ urgency_max and actionability ≥
actionability_min, trust_risk iff sentiment ≤ sentiment_max and impact ≥
impact_min — and returns the matched labels comma-joined in that fixed
order; for urgency=5, impact=5, sentiment=-2, actionability=5 under the
default thresholds the result is exactly "immediate_engineering,trust_risk". -/
theorem determineRoute_matches_spec (v : ClassificationVector) (rules : ClassificationRules) :
    determineRoute v rules = routeSpec v rules ∧
    ("immediate_engineering" ∈ routeSpecLabels v rules ↔
      v.urgency ≥ rules.routing_rules.immediate_engineering.urgency_min ∧
      v.impact ≥ rules.routing_rules.immediate_engineering.impact_min) ∧
    ("quick_win_backlog" ∈ routeSpecLabels v rules ↔
      v.urgency ≤ rules.routing_rules.quick_win_backlog.urgency_max ∧
      v.actionability ≥ rules.routing_rules.quick_win_backlog.actionability_min) ∧
    ("trust_risk" ∈ routeSpecLabels v rules ↔
      v.sentiment ≤ rules.routing_rules.trust_risk.sentiment_max ∧
      v.impact ≥ rules.routing_rules.trust_risk.impact_min) ∧
    determineRoute ⟨5, -2, 5, 5⟩ defaultRules = "immediate_engineering,trust_risk" := by
  refine ⟨?_, ?_, ?_, ?_, ?_⟩
  · simp only [determineRoute, routeSpec, routeSpecLabels]
    split_ifs <;> simp_all
  · simp only [routeSpecLabels, List.mem_append]
    split_ifs <;> simp_all
  · simp only [routeSpecLabels, List.mem_append]
    split_ifs <;> simp_all
  · simp only [routeSpecLabels, List.mem_append]
    split_ifs <;> simp_all
  · rfl

/-- C4: for every ClassificationVector and complete RuleConfiguration,
determineRoute returns a non-empty string (the Lean embedding is total, so
it never throws); when none of the three predicates matches the result is
exactly "standard_backlog", as in the concrete no-match example. -/
theorem determineRoute_total (v : ClassificationVector) (rules : ClassificationRules) :
    determineRoute v rules ≠ "" ∧
    ((¬(v.urgency ≥ rules.routing_rules.immediate_engineering.urgency_min ∧
        v.impact ≥ rules.routing_rules.immediate_engineering.impact_min) ∧
      ¬(v.urgency ≤ rules.routing_rules.quick_win_backlog.urgency_max ∧
        v.actionability ≥ rules.routing_rules.quick_win_backlog.actionability_min) ∧
      ¬(v.sentiment ≤ rules.routing_rules.trust_risk.sentiment_max ∧
        v.impact ≥ rules.routing_rules.trust_risk.impact_min)) →
      determineRoute v rules = "standard_backlog") ∧
    determineRoute ⟨2, 0, 1, 2⟩ defaultRules = "standard_backlog" := by
  refine ⟨?_, ?_, ?_⟩
  · simp only [determineRoute]
    split_ifs <;> first | decide | simp_all
  · intro hn
    obtain ⟨n1, n2, n3⟩ := hn
    simp only [determineRoute]
    rw [if_neg n1, if_neg n2, if_neg n3]
    rfl
  · rfl

/-- Witness for C4 at the concrete no-match vector under default
thresholds. -/
theorem determineRoute_total_witness :
    determineRoute ⟨2, 0, 1, 2⟩ defaultRules ≠ "" ∧
    determineRoute ⟨2, 0, 1, 2⟩ defaultRules = "standard_backlog" :=
  ⟨(determineRoute_total ⟨2, 0, 1, 2⟩ defaultRules).1,
   (determineRoute_total ⟨2, 0, 1, 2⟩ defaultRules).2.1 (by refine ⟨?_, ?_, ?_⟩ <;> decide)⟩

/-- C7: the JSON-extraction step selects the substring from the first
opening brace to the last closing brace of the raw response (not a strict
balanced parse), and extraction fails exactly when no opening brace is
followed by a closing brace. -/
theorem extractJsonObject_first_to_last (s : String) :
    ((extractJsonObject s).isSome ↔
      ∃ i j : Nat, i < j ∧ s.data[i]? = some '{' ∧ s.data[j]? = some '}') ∧
    (∀ i j : Nat,
      s.data[i]? = some '{' → (∀ k : Nat, k < i → s.data[k]? ≠ some '{') →
      s.data[j]? = some '}' → (∀ k : Nat, j < k → s.data[k]? ≠ some '}') →
      i < j →
      extractJsonObject s = some (String.mk ((s.data.drop i).take (j + 1 - i)))) := by
  constructor
  · constructor
    · intro h
      rcases hf : firstIdxOf '{' s.data with _ | i
      · simp only [extractJsonObject, extractFirstToLast, hf] at h; simp at h
      · rcases hl : lastIdxOf '}' s.data with _ | j
        · simp only [extractJsonObject, extractFirstToLast, hf, hl] at h; simp at h
        · simp only [extractJsonObject, extractFirstToLast, hf, hl] at h
          by_cases hij : i < j
          · obtain ⟨h1, _⟩ := firstIdxOf_some_spec '{' s.data i hf
            obtain ⟨h2, _⟩ := lastIdxOf_some_spec '}' s.data j hl
            exact ⟨i, j, hij, h1, h2⟩
          · rw [if_neg hij] at h; simp at h
    · rintro ⟨i, j, hij, hi, hj⟩
      rcases Option.isSome_iff_exists.mp (firstIdxOf_isSome_of_mem '{' s.data i hi) with ⟨i₀, hf⟩
      rcases Option.isSome_iff_exists.mp (lastIdxOf_isSome_of_mem '}' s.data j hj) with ⟨j₀, hl⟩
      obtain ⟨hfi, hfmin⟩ := firstIdxOf_some_spec '{' s.data i₀ hf
      obtain ⟨hlj, hlmax⟩ := lastIdxOf_some_spec '}' s.data j₀ hl
      have hi₀ : i₀ ≤ i := by
        by_contra hc
        exact hfmin i (by omega) hi
      have hj₀ : j ≤ j₀ := by
        by_contra hc
        exact hlmax j (by omega) hj
      have hlt : i₀ < j₀ := by omega
      simp only [extractJsonObject, extractFirstToLast, hf, hl]
      rw [if_pos hlt]
      simp
  · intro i j hi himin hj hjmax hij
    rcases Option.isSome_iff_exists.mp (firstIdxOf_isSome_of_mem '{' s.data i hi) with ⟨i₀, hf⟩
    obtain ⟨hfi, hfmin⟩ := firstIdxOf_some_spec '{' s.data i₀ hf
    have hii : i₀ = i := by
      rcases Nat.lt_trichotomy i₀ i with h | h | h
      · exact absurd hfi (himin i₀ h)
      · exact h
      · exact absurd hi (hfmin i h)
    rcases Option.isSome_iff_exists.mp (lastIdxOf_isSome_of_mem '}' s.data j hj) with ⟨j₀, hl⟩
    obtain ⟨hlj, hlmax⟩ := lastIdxOf_some_spec '}' s.data j₀ hl
    have hjj : j₀ = j := by
      rcases Nat.lt_trichotomy j₀ j with h | h | h
      · exact absurd hj (hlmax j h)
      · exact h
      · exact absurd hlj (hjmax j₀ h)
    subst hii
    subst hjj
    simp only [extractJsonObject, extractFirstToLast, hf, hl]
    rw [if_pos hij]

/-- Witness for C7: prose around the object is tolerated, and a response
without a brace pair fails extraction. -/
theorem extractJsonObject_first_to_last_witness :
    extractJsonObject "a\x7bb\x7d" = some "\x7bb\x7d" := by
  have h := (extractJsonObject_first_to_last "a\x7bb\x7d").2 1 3
    (by decide)
    (by decide)
    (by decide)
    (by
      intro k hk
      have hlen : ("a\x7bb\x7d".data).length = 4 := rfl
      have : ("a\x7bb\x7d".data)[k]? = none := List.getElem?_eq_none (by omega)
      simp [this])
    (by decide)
  exact h.trans (by decide)

/-- C5: the validation step accepts a parsed JSON value iff it contains a
classification member whose urgency member is numeric — sentiment, impact
and actionability are never checked — and parseAIResponse returns an
accepted value unchanged (passing it on to route determination) while any
other shape triggers the conservative-default fallback. -/
theorem parseAIResponse_validation (parsed : Json) :
    (hasValidClassification parsed = true ↔
      ∃ c, jsLookup parsed "classification" = some c ∧
        ∃ q : ℚ, jsLookup c "urgency" = some (Json.num q)) ∧
    (∀ response sub, extractJsonObject response = some sub →
      ∀ j, jsonParse sub = some j →
        parseAIResponse response =
          (if hasValidClassification j = true then j else fallbackParsed)) := by
  constructor
  · constructor
    · intro h
      rcases hc : jsLookup parsed "classification" with _ | c
      · simp only [hasValidClassification, hc] at h
        exact absurd h (by decide)
      · simp only [hasValidClassification, hc, Bool.and_eq_true] at h
        rcases hu : jsLookup c "urgency" with _ | u
        · rw [hu] at h
          simp at h
        · rw [hu] at h
          cases u with
          | num q => exact ⟨c, rfl, q, hu⟩
          | null => simp at h
          | bool b => simp at h
          | str t => simp at h
          | arr l => simp at h
          | obj kvs => simp at h
    · rintro ⟨c, hc, q, hq⟩
      simp [hasValidClassification, hc, hq, jsTruthy_of_lookup c "urgency" (Json.num q) hq]
  · intro response sub hext j hparse
    simp only [parseAIResponse, hext, hparse]

/-- Witness for C5: a parsed value with numeric urgency and a string
sentiment (impact and actionability missing) is accepted and returned
unchanged. -/
theorem parseAIResponse_validation_witness :
    hasValidClassification
      (Json.obj [("classification",
        Json.obj [("urgency", Json.num 1), ("sentiment", Json.str "high")])]) = true ∧
    parseAIResponse "\x7b\"classification\":\x7b\"urgency\":1,\"sentiment\":\"high\"\x7d\x7d" =
      Json.obj [("classification",
        Json.obj [("urgency", Json.num 1), ("sentiment", Json.str "high")])] := by
  constructor
  · exact (parseAIResponse_validation
      (Json.obj [("classification",
        Json.obj [("urgency", Json.num 1), ("sentiment", Json.str "high")])])).1.mpr
      ⟨Json.obj [("urgency", Json.num 1), ("sentiment", Json.str "high")], rfl, 1, rfl⟩
  · have h := (parseAIResponse_validation Json.null).2
      "\x7b\"classification\":\x7b\"urgency\":1,\"sentiment\":\"high\"\x7d\x7d"
      "\x7b\"classification\":\x7b\"urgency\":1,\"sentiment\":\"high\"\x7d\x7d"
      (by rfl)
      (Json.obj [("classification",
        Json.obj [("urgency", Json.num 1), ("sentiment", Json.str "high")])])
      (by rfl)
    exact h.trans (if_pos rfl)

/-- C2: for every LLM response text from which no JSON object can be
extracted, or which parses but fails validation, classifyFeedback does not
propagate an error and returns the fixed conservative default — urgency=3,
sentiment=0, impact=3, actionability=2, confidence=0.3, empty signal list,
the fixed reasoning string — with the route computed by the Rule Engine
from that default vector under the supplied rules, which is
standard_backlog under the default thresholds. -/
theorem classifyFeedback_fallback {ε : Type} (fb : Feedback) (rules : ClassificationRules)
    (ai : LLMCall ε) (response : String)
    (hai : ai classifierModel (classifyMessages fb rules) = Except.ok response)
    (hfail : extractJsonObject response = none ∨
      ∃ sub, extractJsonObject response = some sub ∧
        (jsonParse sub = none ∨
          ∃ j, jsonParse sub = some j ∧ hasValidClassification j = false)) :
    classifyFeedback fb rules ai = Except.ok
      ⟨Json.obj [("feedback_id", Json.str fb.id), ("urgency", Json.num 3),
        ("sentiment", Json.num 0), ("impact", Json.num 3), ("actionability", Json.num 2),
        ("route", Json.str (determineRoute ⟨3, 0, 3, 2⟩ rules)),
        ("confidence", Json.num (3 / 10)), ("reasoning", Json.str fallbackReasoning)], []⟩ ∧
    determineRoute ⟨3, 0, 3, 2⟩ defaultRules = "standard_backlog" := by
  have hp : parseAIResponse response = fallbackParsed := by
    rcases hfail with hnone | ⟨sub, hsub, hrest⟩
    · simp [parseAIResponse, hnone]
    · rcases hrest with hnoparse | ⟨j, hj, hinvalid⟩
      · simp [parseAIResponse, hsub, hnoparse]
      · simp [parseAIResponse, hsub, hj, hinvalid]
  constructor
  · simp only [classifyFeedback, hai]
    rw [hp]
    rw [show jsLookup fallbackParsed "classification" =
      some (vecJson ⟨3, 0, 3, 2⟩) from rfl]
    rw [determineRouteDyn_vecJson ⟨3, 0, 3, 2⟩ rules]
    rfl
  · rfl

/-- Witness for C2 at a response without a closing brace. -/
theorem classifyFeedback_fallback_witness :
    classifyFeedback fbEx defaultRules
        (fun _ _ => (Except.ok "\x7binvalid json" : Except Unit String)) = Except.ok
      ⟨Json.obj [("feedback_id", Json.str fbEx.id), ("urgency", Json.num 3),
        ("sentiment", Json.num 0), ("impact", Json.num 3), ("actionability", Json.num 2),
        ("route", Json.str (determineRoute ⟨3, 0, 3, 2⟩ defaultRules)),
        ("confidence", Json.num (3 / 10)), ("reasoning", Json.str fallbackReasoning)], []⟩ ∧
    determineRoute ⟨3, 0, 3, 2⟩ defaultRules = "standard_backlog" :=
  classifyFeedback_fallback fbEx defaultRules
    (fun _ _ => (Except.ok "\x7binvalid json" : Except Unit String)) "\x7binvalid json"
    rfl (Or.inl rfl)

/-- A signal without a feedback_id key is stamped with the input feedback
identifier. -/
theorem stampSignal_fresh (fb : Feedback) (s : Json)
    (h : jsLookup s "feedback_id" = none) :
    jsLookup (stampSignal fb s) "feedback_id" = some (Json.str fb.id) := by
  cases s with
  | obj kvs =>
    have habs : ∀ p ∈ kvs, ¬ p.1 = "feedback_id" := by
      intro p hp
      have hnone : objLookup kvs "feedback_id" = none := h
      exact (objLookup_none_iff kvs "feedback_id").mp hnone p hp
    unfold stampSignal
    rw [jsLookup_jsSpread_of_absent kvs _ _ habs]
    rfl
  | null => rfl
  | bool b => rfl
  | num q => rfl
  | str t => rfl
  | arr l => rfl

/-- A well-formed signal object carrying its own feedback_id key keeps the
model-supplied value through stamping (the spread overrides the stamped
identifier). -/
theorem stampSignal_keeps (fb : Feedback) (kvs : List (String × Json)) (v : Json)
    (hnd : keysNodup kvs = true) (h : objLookup kvs "feedback_id" = some v) :
    jsLookup (stampSignal fb (Json.obj kvs)) "feedback_id" = some v :=
  jsLookup_jsSpread_obj_of_lookup kvs [("feedback_id", Json.str fb.id)] "feedback_id" v hnd h

/-- C3: for a response whose extracted JSON parses to classification
{urgency 5, sentiment -2, impact 5, actionability 3}, two signal objects,
confidence 0.9 and reasoning "text", classifyFeedback returns exactly those
four axis values, that confidence and reasoning, the Rule Engine's route
for that vector under the supplied rules, and the two signals each stamped
with the input feedback identifier. -/
theorem classifyFeedback_roundtrip {ε : Type} (fb : Feedback) (rules : ClassificationRules)
    (ai : LLMCall ε) (response sub : String) (s1 s2 : Json)
    (hai : ai classifierModel (classifyMessages fb rules) = Except.ok response)
    (hext : extractJsonObject response = some sub)
    (hparse : jsonParse sub = some (Json.obj
      [("classification", Json.obj [("urgency", Json.num 5), ("sentiment", Json.num (-2)),
        ("impact", Json.num 5), ("actionability", Json.num 3)]),
       ("signals", Json.arr [s1, s2]),
       ("confidence", Json.num (9 / 10)), ("reasoning", Json.str "text")]))
    (hs1 : jsLookup s1 "feedback_id" = none) (hs2 : jsLookup s2 "feedback_id" = none) :
    classifyFeedback fb rules ai = Except.ok
      ⟨Json.obj [("feedback_id", Json.str fb.id), ("urgency", Json.num 5),
        ("sentiment", Json.num (-2)), ("impact", Json.num 5), ("actionability", Json.num 3),
        ("route", Json.str (determineRoute ⟨5, -2, 5, 3⟩ rules)),
        ("confidence", Json.num (9 / 10)), ("reasoning", Json.str "text")],
       [stampSignal fb s1, stampSignal fb s2]⟩ ∧
    jsLookup (stampSignal fb s1) "feedback_id" = some (Json.str fb.id) ∧
    jsLookup (stampSignal fb s2) "feedback_id" = some (Json.str fb.id) := by
  have hp : parseAIResponse response = Json.obj
      [("classification", Json.obj [("urgency", Json.num 5), ("sentiment", Json.num (-2)),
        ("impact", Json.num 5), ("actionability", Json.num 3)]),
       ("signals", Json.arr [s1, s2]),
       ("confidence", Json.num (9 / 10)), ("reasoning", Json.str "text")] := by
    simp only [parseAIResponse, hext, hparse]
    exact if_pos rfl
  refine ⟨?_, stampSignal_fresh fb s1 hs1, stampSignal_fresh fb s2 hs2⟩
  simp only [classifyFeedback, hai]
  rw [hp]
  rw [show jsLookup (Json.obj
      [("classification", Json.obj [("urgency", Json.num 5), ("sentiment", Json.num (-2)),
        ("impact", Json.num 5), ("actionability", Json.num 3)]),
       ("signals", Json.arr [s1, s2]),
       ("confidence", Json.num (9 / 10)), ("reasoning", Json.str "text")]) "classification" =
    some (vecJson ⟨5, -2, 5, 3⟩) from rfl]
  rw [determineRouteDyn_vecJson ⟨5, -2, 5, 3⟩ rules]
  rfl

set_option maxRecDepth 100000 in
/-- Witness for C3 at a concrete well-formed response. -/
theorem classifyFeedback_roundtrip_witness :
    classifyFeedback fbEx defaultRules
        (fun _ _ => (Except.ok "\x7b\"classification\":\x7b\"urgency\":5,\"sentiment\":-2,\"impact\":5,\"actionability\":3\x7d,\"signals\":[\x7b\"signal_type\":\"feature_area\",\"signal_value\":\"tunnels\"\x7d,\x7b\"signal_type\":\"user_segment\",\"signal_value\":\"enterprise\"\x7d],\"confidence\":0.9,\"reasoning\":\"text\"\x7d" : Except Unit String)) =
      Except.ok
        ⟨Json.obj [("feedback_id", Json.str fbEx.id), ("urgency", Json.num 5),
          ("sentiment", Json.num (-2)), ("impact", Json.num 5), ("actionability", Json.num 3),
          ("route", Json.str (determineRoute ⟨5, -2, 5, 3⟩ defaultRules)),
          ("confidence", Json.num (9 / 10)), ("reasoning", Json.str "text")],
         [stampSignal fbEx (Json.obj [("signal_type", Json.str "feature_area"), ("signal_value", Json.str "tunnels")]),
          stampSignal fbEx (Json.obj [("signal_type", Json.str "user_segment"), ("signal_value", Json.str "enterprise")])]⟩ ∧
    jsLookup (stampSignal fbEx (Json.obj [("signal_type", Json.str "feature_area"), ("signal_value", Json.str "tunnels")])) "feedback_id" =
      some (Json.str fbEx.id) ∧
    jsLookup (stampSignal fbEx (Json.obj [("signal_type", Json.str "user_segment"), ("signal_value", Json.str "enterprise")])) "feedback_id" =
      some (Json.str fbEx.id) := by
  have h9 : (mkRat 9 10 : ℚ) = 9 / 10 := by norm_num
  have h0 : jsonParse "\x7b\"classification\":\x7b\"urgency\":5,\"sentiment\":-2,\"impact\":5,\"actionability\":3\x7d,\"signals\":[\x7b\"signal_type\":\"feature_area\",\"signal_value\":\"tunnels\"\x7d,\x7b\"signal_type\":\"user_segment\",\"signal_value\":\"enterprise\"\x7d],\"confidence\":0.9,\"reasoning\":\"text\"\x7d" = some (Json.obj
      [("classification", Json.obj [("urgency", Json.num 5), ("sentiment", Json.num (-2)),
        ("impact", Json.num 5), ("actionability", Json.num 3)]),
       ("signals", Json.arr [Json.obj [("signal_type", Json.str "feature_area"), ("signal_value", Json.str "tunnels")],
         Json.obj [("signal_type", Json.str "user_segment"), ("signal_value", Json.str "enterprise")]]),
       ("confidence", Json.num (mkRat 9 10)), ("reasoning", Json.str "text")]) := rfl
  rw [h9] at h0
  exact classifyFeedback_roundtrip fbEx defaultRules _
    "\x7b\"classification\":\x7b\"urgency\":5,\"sentiment\":-2,\"impact\":5,\"actionability\":3\x7d,\"signals\":[\x7b\"signal_type\":\"feature_area\",\"signal_value\":\"tunnels\"\x7d,\x7b\"signal_type\":\"user_segment\",\"signal_value\":\"enterprise\"\x7d],\"confidence\":0.9,\"reasoning\":\"text\"\x7d"
    "\x7b\"classification\":\x7b\"urgency\":5,\"sentiment\":-2,\"impact\":5,\"actionability\":3\x7d,\"signals\":[\x7b\"signal_type\":\"feature_area\",\"signal_value\":\"tunnels\"\x7d,\x7b\"signal_type\":\"user_segment\",\"signal_value\":\"enterprise\"\x7d],\"confidence\":0.9,\"reasoning\":\"text\"\x7d"
    (Json.obj [("signal_type", Json.str "feature_area"), ("signal_value", Json.str "tunnels")]) (Json.obj [("signal_type", Json.str "user_segment"), ("signal_value", Json.str "enterprise")]) rfl rfl h0 rfl rfl

/-- C6: classifyFeedback fails with a propagated transport error exactly
when the LLM invocation itself throws; the conservative-default fallback is
never substituted for an invocation failure (it is reserved for failures
after a response text exists). -/
theorem classifyFeedback_transport {ε : Type} (fb : Feedback) (rules : ClassificationRules)
    (ai : LLMCall ε) (e : ε) :
    classifyFeedback fb rules ai = Except.error (ClassifyError.transport e) ↔
      ai classifierModel (classifyMessages fb rules) = Except.error e := by
  rcases h : ai classifierModel (classifyMessages fb rules) with e' | response
  · simp only [classifyFeedback, h, Except.error.injEq, ClassifyError.transport.injEq]
  · simp only [classifyFeedback, h]
    constructor
    · intro hh
      split at hh <;> simp_all
    · intro hh
      exact absurd hh (by simp)

/-- Witness for C6 with a capability that throws. -/
theorem classifyFeedback_transport_witness :
    classifyFeedback fbEx defaultRules (fun _ _ => (Except.error () : Except Unit String)) =
      Except.error (ClassifyError.transport ()) :=
  (classifyFeedback_transport fbEx defaultRules
    (fun _ _ => (Except.error () : Except Unit String)) ()).mpr rfl

/-- C9: classifyFeedback is deterministic — two capabilities that return
the same response text for the classification invocation yield identical
ClassificationResult and Signal outputs (with identical feedback item and
rules). -/
theorem classifyFeedback_deterministic {ε : Type} (fb : Feedback) (rules : ClassificationRules)
    (ai₁ ai₂ : LLMCall ε)
    (h : ai₁ classifierModel (classifyMessages fb rules) =
      ai₂ classifierModel (classifyMessages fb rules)) :
    classifyFeedback fb rules ai₁ = classifyFeedback fb rules ai₂ := by
  simp only [classifyFeedback, h]

/-- Witness for C9: two syntactically different stubs with equal response
text. -/
theorem classifyFeedback_deterministic_witness :
    classifyFeedback fbEx defaultRules (fun _ _ => (Except.ok "resp" : Except Unit String)) =
      classifyFeedback fbEx defaultRules
        (fun _ _ => (Except.ok ("re" ++ "sp") : Except Unit String)) :=
  classifyFeedback_deterministic fbEx defaultRules
    (fun _ _ => (Except.ok "resp" : Except Unit String))
    (fun _ _ => (Except.ok ("re" ++ "sp") : Except Unit String)) rfl

/-- C10: because the parsed model fields are spread after the stamped
feedback identifier, a parsed classification object (or signal object)
that itself carries a feedback_id key makes classifyFeedback return the
model-supplied value; the input item's identifier is used only when the
parsed object lacks a feedback_id key. -/
theorem classifyFeedback_feedback_id_override {ε : Type} (fb : Feedback)
    (rules : ClassificationRules) (ai : LLMCall ε) (response sub : String)
    (parsed cls : Json) (sigs : List Json)
    (hai : ai classifierModel (classifyMessages fb rules) = Except.ok response)
    (hext : extractJsonObject response = some sub)
    (hjson : jsonParse sub = some parsed)
    (hvalid : hasValidClassification parsed = true)
    (hcls : jsLookup parsed "classification" = some cls)
    (hsigs : jsLookup parsed "signals" = some (Json.arr sigs)) :
    ∃ out, classifyFeedback fb rules ai = Except.ok out ∧
      out.signals = sigs.map (stampSignal fb) ∧
      (∀ v, jsLookup cls "feedback_id" = some v →
        jsLookup out.classification "feedback_id" = some v) ∧
      (jsLookup cls "feedback_id" = none →
        jsLookup out.classification "feedback_id" = some (Json.str fb.id)) ∧
      (∀ s, s ∈ sigs → ∀ v, jsLookup s "feedback_id" = some v →
        jsLookup (stampSignal fb s) "feedback_id" = some v) ∧
      (∀ s, s ∈ sigs → jsLookup s "feedback_id" = none →
        jsLookup (stampSignal fb s) "feedback_id" = some (Json.str fb.id)) := by
  have hp : parseAIResponse response = parsed := by
    simp only [parseAIResponse, hext, hjson]
    exact if_pos hvalid
  have hwf : jsonWfB parsed = true := jsonParse_wf sub parsed hjson
  have hwcls : jsonWfB cls = true := jsonWfB_lookup parsed _ _ hwf hcls
  have hwsigs : jsonWfB (Json.arr sigs) = true := jsonWfB_lookup parsed _ _ hwf hsigs
  have hassem : ∀ route,
      jsLookup (assembleClassification fb parsed route) "feedback_id" =
        jsLookup (jsSpread (Json.obj [("feedback_id", Json.str fb.id)]) cls) "feedback_id" := by
    intro route
    unfold assembleClassification
    rw [hcls]
    rw [jsLookup_jsSetOpt_other _ _ _ _ (by decide), jsLookup_jsSetOpt_other _ _ _ _ (by decide),
      jsLookup_jsSet_other _ _ _ _ (by decide)]
    rfl
  refine ⟨⟨assembleClassification fb parsed
      (determineRouteDyn (jsLookup parsed "classification") rules), sigs.map (stampSignal fb)⟩,
    ?_, rfl, ?_, ?_, ?_, ?_⟩
  · simp only [classifyFeedback, hai]
    rw [hp, hsigs]
  · intro v hkeep
    rw [hassem _]
    cases cls with
    | obj kvs =>
      exact jsLookup_jsSpread_obj_of_lookup kvs _ _ v (jsonWfB_obj_nodup kvs hwcls) hkeep
    | null => simp [jsLookup] at hkeep
    | bool b => simp [jsLookup] at hkeep
    | num q => simp [jsLookup] at hkeep
    | str t => simp [jsLookup] at hkeep
    | arr l => simp [jsLookup] at hkeep
  · intro hnone
    rw [hassem _]
    cases cls with
    | obj kvs =>
      have habs : ∀ p ∈ kvs, ¬ p.1 = "feedback_id" :=
        (objLookup_none_iff kvs "feedback_id").mp hnone
      rw [jsLookup_jsSpread_of_absent kvs _ _ habs]
      rfl
    | null => rfl
    | bool b => rfl
    | num q => rfl
    | str t => rfl
    | arr l => rfl
  · intro s hs v hkeep
    have hws : jsonWfB s = true := jsonListWfB_mem sigs s hwsigs hs
    cases s with
    | obj kvs => exact stampSignal_keeps fb kvs v (jsonWfB_obj_nodup kvs hws) hkeep
    | null => simp [jsLookup] at hkeep
    | bool b => simp [jsLookup] at hkeep
    | num q => simp [jsLookup] at hkeep
    | str t => simp [jsLookup] at hkeep
    | arr l => simp [jsLookup] at hkeep
  · intro s _ h
    exact stampSignal_fresh fb s h

/-- Witness for C10: a parsed classification and signal carrying their own
feedback_id keys override the stamped input identifier. -/
theorem classifyFeedback_feedback_id_override_witness :
    ∃ out, classifyFeedback fbEx defaultRules
        (fun _ _ => (Except.ok "\x7b\"classification\":\x7b\"urgency\":1,\"feedback_id\":\"spoofed\"\x7d,\"signals\":[\x7b\"feedback_id\":\"sig\"\x7d]\x7d" : Except Unit String)) = Except.ok out ∧
      jsLookup out.classification "feedback_id" = some (Json.str "spoofed") ∧
      jsLookup (stampSignal fbEx (Json.obj [("feedback_id", Json.str "sig")]))
        "feedback_id" = some (Json.str "sig") := by
  obtain ⟨out, h1, _, h3, _, h5, _⟩ :=
    classifyFeedback_feedback_id_override fbEx defaultRules
      (fun _ _ => (Except.ok "\x7b\"classification\":\x7b\"urgency\":1,\"feedback_id\":\"spoofed\"\x7d,\"signals\":[\x7b\"feedback_id\":\"sig\"\x7d]\x7d" : Except Unit String))
      "\x7b\"classification\":\x7b\"urgency\":1,\"feedback_id\":\"spoofed\"\x7d,\"signals\":[\x7b\"feedback_id\":\"sig\"\x7d]\x7d"
      "\x7b\"classification\":\x7b\"urgency\":1,\"feedback_id\":\"spoofed\"\x7d,\"signals\":[\x7b\"feedback_id\":\"sig\"\x7d]\x7d"
      (Json.obj [("classification",
          Json.obj [("urgency", Json.num 1), ("feedback_id", Json.str "spoofed")]),
        ("signals", Json.arr [Json.obj [("feedback_id", Json.str "sig")]])])
      (Json.obj [("urgency", Json.num 1), ("feedback_id", Json.str "spoofed")])
      [Json.obj [("feedback_id", Json.str "sig")]]
      rfl rfl rfl rfl rfl rfl
  exact ⟨out, h1, h3 (Json.str "spoofed") rfl,
    h5 (Json.obj [("feedback_id", Json.str "sig")]) (by simp) (Json.str "sig") rfl⟩

/-- C8: extractThemes depends only on the first 20 feedback items and the
first 200 characters of each item's content (plus titles) when building
its prompt, and on any extraction or parse failure of the model output it
returns the empty list rather than an error — once a response text exists
it always resolves successfully. -/
theorem extractThemes_spec {ε : Type} (items items' : List Feedback) (limit : Nat)
    (ai : LLMCall ε) (response : String) :
    ((items.take 20).map (fun f => (f.title, f.content.take 200)) =
        (items'.take 20).map (fun f => (f.title, f.content.take 200)) →
      extractThemes items limit ai = extractThemes items' limit ai) ∧
    (items ≠ [] → ai themesModel (themesMessages items limit) = Except.ok response →
      (extractJsonArray response = none ∨
        ∀ sub, extractJsonArray response = some sub → jsonParse sub = none) →
      extractThemes items limit ai = Except.ok []) ∧
    (items ≠ [] → ai themesModel (themesMessages items limit) = Except.ok response →
      ∃ l, extractThemes items limit ai = Except.ok l) := by
  refine ⟨?_, ?_, ?_⟩
  · intro hmap
    have hsum : buildThemesSummary items = buildThemesSummary items' := by
      unfold buildThemesSummary
      have h1 : ∀ (L : List Feedback),
          L.map (fun f => "- " ++ f.title ++ ": " ++ f.content.take 200) =
          (L.map (fun f => (f.title, f.content.take 200))).map
            (fun p => "- " ++ p.1 ++ ": " ++ p.2) := by
        intro L
        induction L with
        | nil => rfl
        | cons a t ih => simp [ih]
      rw [h1 (items.take 20), h1 (items'.take 20), hmap]
    have hmsg : themesMessages items limit = themesMessages items' limit := by
      unfold themesMessages buildThemesPrompt
      rw [hsum]
    by_cases he : items.length = 0
    · have hnil : items = [] := by
        cases items with
        | nil => rfl
        | cons a t => simp at he
      have hnil' : items' = [] := by
        cases items' with
        | nil => rfl
        | cons a t =>
          subst hnil
          simp at hmap
      subst hnil
      subst hnil'
      rfl
    · have he' : ¬ items'.length = 0 := by
        intro h0
        have hnil' : items' = [] := by
          cases items' with
          | nil => rfl
          | cons a t => simp at h0
        subst hnil'
        cases items with
        | nil => exact he rfl
        | cons a t => simp at hmap
      simp only [extractThemes, if_neg he, if_neg he', hmsg]
  · intro hne hai hfail
    have hne0 : ¬ items.length = 0 := by
      intro h0
      apply hne
      cases items with
      | nil => rfl
      | cons a t => simp at h0
    simp only [extractThemes, if_neg hne0, hai]
    rcases hfail with hnone | hsome
    · simp only [hnone]
    · rcases hx : extractJsonArray response with _ | sub
      · simp only [hx]
      · simp only [hx, hsome sub hx]
  · intro hne hai
    have hne0 : ¬ items.length = 0 := by
      intro h0
      apply hne
      cases items with
      | nil => rfl
      | cons a t => simp at h0
    simp only [extractThemes, if_neg hne0, hai]
    rcases hx : extractJsonArray response with _ | sub
    · exact ⟨[], by simp [hx]⟩
    · rcases hj : jsonParse sub with _ | j
      · exact ⟨[], by simp [hx, hj]⟩
      · cases j with
        | arr l => exact ⟨l, by simp [hx, hj]⟩
        | null => exact ⟨[], by simp [hx, hj]⟩
        | bool b => exact ⟨[], by simp [hx, hj]⟩
        | num q => exact ⟨[], by simp [hx, hj]⟩
        | str t => exact ⟨[], by simp [hx, hj]⟩
        | obj kvs => exact ⟨[], by simp [hx, hj]⟩

set_option maxRecDepth 100000 in
/-- Witness for C8: a response without a JSON array yields the empty list,
and items beyond the first 20 do not change the result. -/
theorem extractThemes_spec_witness :
    extractThemes [fbEx] 5 (fun _ _ => (Except.ok "no array here" : Except Unit String)) =
      Except.ok [] ∧
    extractThemes (List.replicate 25 fbEx) 5
        (fun _ _ => (Except.ok "x" : Except Unit String)) =
      extractThemes (List.replicate 21 fbEx) 5
        (fun _ _ => (Except.ok "x" : Except Unit String)) :=
  ⟨(extractThemes_spec [fbEx] [fbEx] 5
      (fun _ _ => (Except.ok "no array here" : Except Unit String)) "no array here").2.1
      (by simp) rfl (Or.inl rfl),
   (extractThemes_spec (List.replicate 25 fbEx) (List.replicate 21 fbEx) 5
      (fun _ _ => (Except.ok "x" : Except Unit String)) "x").1 rfl⟩
